import Mathlib

/-!
Verification of the swinstall_stack history resolver.

This file shallowly embeds the algorithmic core of the repository:

* `src/pybool.rs`      — the `Pybool` boolean-token type;
* `src/errors.rs`      — the `SwInstallError` error enumeration (the variants
  reachable from the embedded code);
* `src/schemas/one.rs` — schema-1 record (`One.Elt`), its decoding
  (`One.Elt.from_attrs`), the `current_at` scan and the `update` rewrite;
* `src/schemas/two.rs` — schema-2 record (`Two.Elt`), its decoding, the
  `current_at` scan and the `update` rewrite;
* `src/parser.rs`      — schema-identifier resolution (`SwinstallParser.schema`);
* `src/utils.rs`       — `versioned_from_swinstall_stack` path derivation;
* `src/actions.rs`     — the `Action` enumeration.

Modelling conventions:

* An XML `elt` element is represented by its attribute list
  (`Attrs := List (String × String)`); a record stream is a `List Attrs`
  holding the `elt` elements in document order.  The surrounding
  `stack_history` start/end events and other XML events, which the Rust
  loops copy or skip without touching the scan state, are abstracted away.
* `NaiveDateTime` values are represented by the natural number
  `YYYYMMDDHHMMSS`; for timestamps in the fixed `%Y%m%d-%H%M%S` wire format
  this numeric order coincides with chronological order.
  `parseDT` models `chrono::NaiveDateTime::parse_from_str` with this format
  (digit-shape and simple field-range validation).
* Rust's `str::split('_')` / `split('/')` is modelled by `splitChar`,
  defined below by direct recursion on the character list.
* A function that can `panic!` / `unimplemented!` returns a `UResult`,
  whose `panicked` constructor marks divergence-by-panic as distinct from
  a returned typed error.
-/

/-- The error enumeration of `src/errors.rs` (`SwInstallError`), restricted to
the variants reachable from the embedded functions. -/
inductive SwInstallError where
  | QuckXmlError (msg : String)
  | NoDefaultSchema
  | NoCurrentFound
  | NoFileNameFromPath
  | ConvertOsStrFail
  | MissingEltAttribute
  | ChronoParseError (msg : String)
  | RuntimeError (msg : String)
  deriving DecidableEq, Repr

/-- Result of an operation that may also `panic!`: `ok` a value, `err` a typed
`SwInstallError`, or `panicked` (divergence via `panic!`/`unimplemented!`). -/
inductive UResult (α : Type) where
  | ok (val : α)
  | err (e : SwInstallError)
  | panicked (msg : String)
  deriving DecidableEq, Repr

/-- The boolean-token type of `src/pybool.rs`, mirroring Python's literal
spelling. -/
inductive Pybool where
  | True
  | False
  deriving DecidableEq, Repr

/-- `Pybool::from_str` (src/pybool.rs:19-25). -/
def Pybool.from_str (value : String) : Except SwInstallError Pybool :=
  if value = "True" ∨ value = "true" then .ok .True
  else if value = "False" ∨ value = "false" then .ok .False
  else .error (.RuntimeError ("invalid input: " ++ value))

/-- `Pybool::as_bool` (src/pybool.rs:27-32). -/
def Pybool.as_bool : Pybool → Bool
  | .True => true
  | .False => false

/-- `Pybool::to_string` (src/pybool.rs:35-42). -/
def Pybool.to_string : Pybool → String
  | .True => "True"
  | .False => "False"

/-- An XML element's attributes, as (key, value) pairs in document order. -/
abbrev Attrs := List (String × String)

/-- Scanning an attribute list for a key, later occurrences winning — the shape
of the `for attr in attrs` loops in both `from_attrs` implementations. -/
def findAttr (key : String) (attrs : Attrs) : Option String :=
  attrs.foldl (fun acc kv => if kv.1 = key then some kv.2 else acc) none

/-- Numeric value of a digit list (most significant first). -/
def digitsToNat (l : List Char) : Nat :=
  l.foldl (fun n c => n * 10 + (c.toNat - '0'.toNat)) 0

/-- Model of `chrono::NaiveDateTime::parse_from_str(s, "%Y%m%d-%H%M%S")`
(constants.rs `DATETIME_FMT`): the string must be exactly
`YYYYMMDD-HHMMSS` with digit fields in calendar-plausible ranges; the result
is the number `YYYYMMDDHHMMSS`, whose numeric order agrees with chronological
order on this fixed-width format. -/
def parseDT (s : String) : Option Nat :=
  match s.toList with
  | [y1, y2, y3, y4, mo1, mo2, d1, d2, dash, h1, h2, mi1, mi2, s1, s2] =>
    let digits := [y1, y2, y3, y4, mo1, mo2, d1, d2, h1, h2, mi1, mi2, s1, s2]
    if dash = '-' ∧ digits.all Char.isDigit then
      let mo := digitsToNat [mo1, mo2]
      let d := digitsToNat [d1, d2]
      let h := digitsToNat [h1, h2]
      let mi := digitsToNat [mi1, mi2]
      let sec := digitsToNat [s1, s2]
      if 1 ≤ mo ∧ mo ≤ 12 ∧ 1 ≤ d ∧ d ≤ 31 ∧ h ≤ 23 ∧ mi ≤ 59 ∧ sec ≤ 59 then
        some (digitsToNat (digits.take 8 ++ digits.drop 8))
      else none
    else none
  | _ => none

/-- Accumulator-passing core of `splitChar`: split a character list at every
occurrence of `sep`, the reversed current piece living in `acc`. -/
def splitCharAux (sep : Char) : List Char → List Char → List String
  | [], acc => [String.mk acc.reverse]
  | c :: cs, acc =>
    if c = sep then String.mk acc.reverse :: splitCharAux sep cs []
    else splitCharAux sep cs (c :: acc)

/-- Model of Rust's `str::split(sep)` for a single-character separator:
yields the (possibly empty) pieces between occurrences of `sep`; the empty
string yields `[""]`, exactly as in Rust. -/
def splitChar (sep : Char) (s : String) : List String :=
  splitCharAux sep s.toList []

/-- ASCII lowering of one character (the range relevant to the
`"True"`/`"False"` wire tokens). -/
def charLower (c : Char) : Char :=
  if 65 ≤ c.toNat ∧ c.toNat ≤ 90 then Char.ofNat (c.toNat + 32) else c

/-- Model of Rust's `str::to_lowercase`, character by character. -/
def toLowercase (s : String) : String :=
  String.mk (s.data.map charLower)

namespace One

/-- The schema-1 record (`Elt`, src/schemas/one.rs:79-84): currency flag, the
timestamp part of the version token, and the optional revision suffix. -/
structure Elt where
  is_current : Pybool
  version : String
  revision : Option String
  deriving DecidableEq, Repr

/-- `Elt::new` (src/schemas/one.rs:87-94): split the raw token on `_`; with
exactly two pieces the second becomes the revision; the version is the last
remaining piece, with a placeholder if none remains. -/
def Elt.new (is_current : Pybool) (version : String) : Elt :=
  let pieces := splitChar '_' version
  match pieces with
  | [a, b] => ⟨is_current, a, some b⟩
  | ps => ⟨is_current, (ps.getLast?).getD "10000101-010101", none⟩

/-- `SwinstallElement::version` for schema 1 (src/schemas/one.rs:139-145):
re-joins the stored version and the optional revision suffix.  (Named
`versionFull` because the structure field is already called `version`.) -/
def Elt.versionFull (e : Elt) : String :=
  e.version ++ (match e.revision with
    | some r => "_" ++ r
    | none => "")

/-- `Elt::from_attrs` for schema 1 (src/schemas/one.rs:98-137): read the
`is_current` and `version` attributes (missing ⇒ `MissingEltAttribute`),
lowercase the flag, parse it as a `Pybool`, and build the record via
`Elt::new`. -/
def Elt.from_attrs (attrs : Attrs) : Except SwInstallError Elt :=
  match findAttr "is_current" attrs, findAttr "version" attrs with
  | some cur, some ver =>
    match Pybool.from_str (toLowercase cur) with
    | .ok b => .ok (Elt.new b ver)
    | .error e => .error e
  | _, _ => .error .MissingEltAttribute

/-- The loop of `One::current_at` (src/schemas/one.rs:187-259), one recursion
step per `elt` record: decode the record, parse its embedded timestamp,
refresh the `in_datetime` / `current` state, record it as `last_elt` when
in range, and return `last_elt` as soon as the record just read is current
and in range, or is out of range; reaching end of stream yields
`NoCurrentFound`. -/
def current_at_loop (t : Nat) : List Attrs → Option Elt → Except SwInstallError Elt
  | [], _ => .error .NoCurrentFound
  | a :: rest, last_elt =>
    match Elt.from_attrs a with
    | .error e => .error e
    | .ok elt =>
      match parseDT elt.version with
      | none => .error (.ChronoParseError elt.version)
      | some dt =>
        let in_datetime := decide (dt ≤ t)
        let current := elt.is_current.as_bool
        let last_elt := if in_datetime then some elt else last_elt
        if (current && in_datetime) || !in_datetime then
          match last_elt with
          | some e => .ok e
          | none => .error .NoCurrentFound
        else
          current_at_loop t rest last_elt

/-- `One::current_at` (src/schemas/one.rs:187-259), on the record stream. -/
def current_at (recs : List Attrs) (t : Nat) : Except SwInstallError Elt :=
  current_at_loop t recs none

/-- `One::new_elem` (src/schemas/one.rs:157-171): the attribute set written
for the freshly installed record — `is_current` from the element's flag,
`version` from its (split) version field. -/
def new_elem (elem : Elt) : Attrs :=
  [("is_current", elem.is_current.to_string), ("version", elem.version)]

/-- The `Action::Install` loop of `One::update` (src/schemas/one.rs:277-313):
copy each record through, except that a record decoding with
`is_current = true` is re-emitted as `is_current="False"` with its (split)
`version` field; at end of stream append the new element. -/
def update_loop (elem : Elt) : List Attrs → Except SwInstallError (List Attrs)
  | [] => .ok [new_elem elem]
  | a :: rest =>
    match Elt.from_attrs a with
    | .error e => .error e
    | .ok elt =>
      match update_loop elem rest with
      | .error e => .error e
      | .ok out =>
        if elt.is_current.as_bool then
          .ok ([("is_current", "False"), ("version", elt.version)] :: out)
        else
          .ok (a :: out)

end One

namespace actions

/-- The `Action` enumeration of `src/actions.rs` (namespaced after its module,
since Mathlib already claims the root name `Action`). -/
inductive Action where
  | Install (version : String)
  | Rollback (version : String)
  | Rollforward (version : String)
  deriving DecidableEq, Repr

end actions

namespace One

/-- `One::update` (src/schemas/one.rs:262-318): the `Install` action rewrites
the stream via `update_loop`; every other action hits `unimplemented!()`,
i.e. panics rather than returning a typed error. -/
def update (action : actions.Action) (recs : List Attrs) (elem : Elt) : UResult (List Attrs) :=
  match action with
  | .Install _ =>
    match update_loop elem recs with
    | .ok out => .ok out
    | .error e => .err e
  | _ => .panicked "not implemented"

end One

namespace Two

/-- The schema-2 record (`Elt`, src/schemas/two.rs:65-71). -/
structure Elt where
  action : String
  datetime : String
  hash : String
  version : String
  deriving DecidableEq, Repr

/-- `Elt::from_attrs` for schema 2 (src/schemas/two.rs:83-114): read the four
attributes, any missing one yielding `MissingEltAttribute`. -/
def Elt.from_attrs (attrs : Attrs) : Except SwInstallError Elt :=
  match findAttr "action" attrs, findAttr "datetime" attrs,
        findAttr "hash" attrs, findAttr "version" attrs with
  | some a, some d, some h, some v => .ok ⟨a, d, h, v⟩
  | _, _, _, _ => .error .MissingEltAttribute

/-- `Two::current_at` (src/schemas/two.rs:144-174): scan the records in
declared order and return the first whose `datetime` parses to a value
≤ the target; end of stream yields `NoCurrentFound`. -/
def current_at (recs : List Attrs) (t : Nat) : Except SwInstallError Elt :=
  match recs with
  | [] => .error .NoCurrentFound
  | a :: rest =>
    match Elt.from_attrs a with
    | .error e => .error e
    | .ok elt =>
      match parseDT elt.datetime with
      | none => .error (.ChronoParseError elt.datetime)
      | some dt =>
        if dt ≤ t then .ok elt
        else current_at rest t

/-- The attribute set written for the new schema-2 record inside
`Two::update` (src/schemas/two.rs:202-210). -/
def new_elem (elem : Elt) : Attrs :=
  [("action", elem.action), ("datetime", elem.datetime),
   ("hash", elem.hash), ("version", elem.version)]

/-- The `Action::Install` loop of `Two::update` (src/schemas/two.rs:195-239):
on the first `elt` record (`cnt == 0`) the new element is written just
before it; every existing record is then copied unchanged.  A stream with
no `elt` record reaches end of stream without the new element ever being
written. -/
def update_loop (elem : Elt) (cnt : Nat) : List Attrs → List Attrs
  | [] => []
  | a :: rest =>
    if cnt = 0 then new_elem elem :: a :: update_loop elem 1 rest
    else a :: update_loop elem cnt rest

/-- `Two::update` (src/schemas/two.rs:179-244): the `Install` action rewrites
the stream via `update_loop`; every other action hits `unimplemented!()`. -/
def update (action : actions.Action) (recs : List Attrs) (elem : Elt) : UResult (List Attrs) :=
  match action with
  | .Install _ => .ok (update_loop elem 0 recs)
  | _ => .panicked "not implemented"

end Two

namespace SwinstallParser

/-- `SwinstallParser::schema` (src/parser.rs:74-87): start from the configured
default — failing with `NoDefaultSchema` when none is configured, before the
root's attributes are ever consulted — then overwrite it with each `schema`
attribute found on the root element. -/
def schema (default_schema : Option String) (attrs : Attrs) : Except SwInstallError String :=
  match default_schema with
  | none => .error .NoDefaultSchema
  | some d =>
    .ok (attrs.foldl (fun acc kv => if kv.1 = "schema" then kv.2 else acc) d)

end SwinstallParser

/-- `versioned_from_swinstall_stack` (src/utils.rs:58-77), with a path
modelled as its `/`-separated component list: pop the stack-file component,
read the parent directory's base name (`file_name`), pop it, then push the
base name and `<base>_<version>`, re-joining with `/`.  An absolute path's
leading `/` appears as a leading empty component, as produced by
`splitChar '/'`. -/
def versioned_from_swinstall_stack (filepath : String) (version : String) :
    Except SwInstallError String :=
  let comps := (splitChar '/' filepath).dropLast
  match comps.getLast? with
  | none => .error .NoFileNameFromPath
  | some file_name =>
    let comps := comps.dropLast
    let comps := comps ++ [file_name, file_name ++ "_" ++ version]
    .ok (String.intercalate "/" comps)


/-- The seven-record schema-1 scenario of the specification (also the parser
test fixture in src/parser.rs): `(is_current, version)` pairs in document
order. -/
def scenario1 : List Attrs :=
  [[("is_current", "False"), ("version", "20181220-090624")],
   [("is_current", "False"), ("version", "20181220-090616")],
   [("is_current", "False"), ("version", "20181220-090608")],
   [("is_current", "False"), ("version", "20181220-090333")],
   [("is_current", "True"), ("version", "20161213-093146_r575055")],
   [("is_current", "False"), ("version", "20181220-091955")],
   [("is_current", "False"), ("version", "20181220-092031")]]

/-- Re-join split pieces with the separator: the inverse direction of
`splitChar`, used to state the round-trip property. -/
def joinPieces (sep : Char) : List String → String
  | [] => ""
  | [a] => a
  | a :: rest => a ++ String.mk [sep] ++ joinPieces sep rest

/-- A schema-1 record stream is well formed when every record decodes. -/
def One.wellFormed (recs : List Attrs) : Prop :=
  ∀ a ∈ recs, ∃ e, One.Elt.from_attrs a = .ok e

/-- How `One::update` re-emits one existing record (src/schemas/one.rs:282-298),
as a record-level map: a record decoding with `is_current = true` is replaced
by `is_current="False"` with its (split) `version` field; any other record is
copied verbatim. -/
def One.rewriteRecord (a : Attrs) : Attrs :=
  match One.Elt.from_attrs a with
  | .ok e =>
    if e.is_current.as_bool then [("is_current", "False"), ("version", e.version)]
    else a
  | .error _ => a

/-- The embedded timestamp of a schema-2 record: decode, then parse its
`datetime` attribute. -/
def Two.recDT (a : Attrs) : Option Nat :=
  match Two.Elt.from_attrs a with
  | .ok e => parseDT e.datetime
  | .error _ => none

/-- Written from the specification's words for schema 2: the first record in
declared order whose datetime is at or before the target. -/
def Two.firstAtOrBefore (recs : List Attrs) (t : Nat) : Option Attrs :=
  recs.find? (fun a =>
    match Two.recDT a with
    | some d => decide (d ≤ t)
    | none => false)

/-- A schema-2 record stream is well formed when every record decodes and its
datetime parses. -/
def Two.wellFormed (recs : List Attrs) : Prop :=
  ∀ a ∈ recs, ∃ e d, Two.Elt.from_attrs a = .ok e ∧ parseDT e.datetime = some d

/-- The newest-first ordering invariant of a schema-2 stream: along the list,
embedded timestamps never increase. -/
def Two.newestFirst (recs : List Attrs) : Prop :=
  recs.Pairwise (fun a b => ∀ da db, Two.recDT a = some da → Two.recDT b = some db → db ≤ da)

theorem splitCharAux_ne_nil (sep : Char) (cs acc : List Char) :
    splitCharAux sep cs acc ≠ [] := by
  induction cs generalizing acc with
  | nil => simp [splitCharAux]
  | cons c cs ih =>
    simp only [splitCharAux]
    split
    · simp
    · exact ih _

theorem joinPieces_splitCharAux (sep : Char) (cs : List Char) :
    ∀ acc, joinPieces sep (splitCharAux sep cs acc) = String.mk (acc.reverse ++ cs) := by
  induction cs with
  | nil => intro acc; simp [splitCharAux, joinPieces]
  | cons c cs ih =>
    intro acc
    simp only [splitCharAux]
    by_cases hc : c = sep
    · rw [if_pos hc]
      obtain ⟨x, xs, hx⟩ : ∃ x xs, splitCharAux sep cs [] = x :: xs := by
        cases h : splitCharAux sep cs [] with
        | nil => exact absurd h (splitCharAux_ne_nil sep cs [])
        | cons x xs => exact ⟨x, xs, rfl⟩
      rw [hx, show joinPieces sep (String.mk acc.reverse :: x :: xs)
            = String.mk acc.reverse ++ String.mk [sep] ++ joinPieces sep (x :: xs) from rfl,
          ← hx, ih []]
      show String.mk (acc.reverse ++ [sep] ++ ([] ++ cs)) = _
      simp [hc]
    · rw [if_neg hc, ih (c :: acc)]
      simp

theorem splitCharAux_length (sep : Char) (cs : List Char) :
    ∀ acc, (splitCharAux sep cs acc).length = cs.count sep + 1 := by
  induction cs with
  | nil => intro acc; simp [splitCharAux]
  | cons c cs ih =>
    intro acc
    simp only [splitCharAux]
    by_cases hc : c = sep
    · rw [if_pos hc]
      simp [ih, List.count_cons, hc]
    · rw [if_neg hc]
      simp [ih, List.count_cons, hc]

/-- C5: the code evaluated at the failing input.  With no default schema
configured, `SwinstallParser::schema` fails with `NoDefaultSchema` even though
the root element explicitly declares `schema="2"`; the declared identifier is
honoured only when a default is also configured. -/
theorem parser_schema_requires_default :
    SwinstallParser.schema none [("schema", "2")] = .error .NoDefaultSchema
    ∧ SwinstallParser.schema (some "1") [("schema", "2")] = .ok "2" :=
  ⟨rfl, rfl⟩

/-- C6 counterexample: at a concrete rollback invocation, both schema
resolvers' `update` panics via `unimplemented!()` instead of returning a typed
"unsupported action" error. -/
theorem update_rollback_panics_concrete :
    One.update (actions.Action.Rollback "1") []
        (One.Elt.new Pybool.True "20190101-113000") = .panicked "not implemented"
    ∧ Two.update (actions.Action.Rollback "1") []
        ⟨"rollback", "20190101-113000", "abc123", "1"⟩ = .panicked "not implemented" :=
  ⟨rfl, rfl⟩

/-- C6 (amended): for every action other than install — rollback or
rollforward — the `update` operation of each schema resolver panics via
`unimplemented!()`; no typed error is returned to the caller. -/
theorem update_non_install_panics (v : String) (recs : List Attrs)
    (e1 : One.Elt) (e2 : Two.Elt) :
    One.update (actions.Action.Rollback v) recs e1 = .panicked "not implemented"
    ∧ One.update (actions.Action.Rollforward v) recs e1 = .panicked "not implemented"
    ∧ Two.update (actions.Action.Rollback v) recs e2 = .panicked "not implemented"
    ∧ Two.update (actions.Action.Rollforward v) recs e2 = .panicked "not implemented" :=
  ⟨rfl, rfl, rfl, rfl⟩

/-- C8 counterexample: on the stack path of the repository's own unit test,
the derived versioned path keeps the `bak` directory component; it is not the
claimed path with `bak` dropped. -/
theorem versioned_path_keeps_bak :
    versioned_from_swinstall_stack
        "/dd/facility/etc/bak/packages.xml/packages.xml_swinstall_stack" "0002"
      = .ok "/dd/facility/etc/bak/packages.xml/packages.xml_0002"
    ∧ ("/dd/facility/etc/bak/packages.xml/packages.xml_0002" : String)
      ≠ "/dd/facility/etc/packages.xml/packages.xml_0002" :=
  ⟨rfl, by decide⟩

/-- C3 counterexample: schema-1 install on a stream whose current record
carries a revision suffix.  The current record is re-emitted with its version
attribute truncated to the timestamp part — not copied verbatim with only the
flag flipped, as the claim states. -/
theorem one_update_not_verbatim :
    One.update (actions.Action.Install "20190101-113000")
        [[("is_current", "True"), ("version", "20161213-093146_r575055")]]
        (One.Elt.new Pybool.True "20190101-113000")
      = .ok [[("is_current", "False"), ("version", "20161213-093146")],
             [("is_current", "True"), ("version", "20190101-113000")]]
    ∧ [[("is_current", "False"), ("version", "20161213-093146")],
       [("is_current", "True"), ("version", "20190101-113000")]]
      ≠ [[("is_current", "False"), ("version", "20161213-093146_r575055")],
         [("is_current", "True"), ("version", "20190101-113000")]] :=
  ⟨by decide, by decide⟩

/-- C4 counterexample: schema-2 install on a stream with no existing records
writes nothing — the new record is absent from the output, against the
claim that it is always present. -/
theorem two_update_empty_drops_new :
    Two.update (actions.Action.Install "4") []
        ⟨"install", "20190101-113000", "abc123", "4"⟩ = .ok []
    ∧ Two.new_elem ⟨"install", "20190101-113000", "abc123", "4"⟩ ∉ ([] : List Attrs) :=
  ⟨rfl, by simp⟩

theorem one_loop_step_skip (t : Nat) (a : Attrs) (rest : List Attrs)
    (last : Option One.Elt) (elt : One.Elt) (d : Nat)
    (h1 : One.Elt.from_attrs a = .ok elt) (h2 : parseDT elt.version = some d)
    (h3 : d ≤ t) (h4 : elt.is_current.as_bool = false) :
    One.current_at_loop t (a :: rest) last = One.current_at_loop t rest (some elt) := by
  simp [One.current_at_loop, h1, h2, h3, h4]

theorem one_loop_step_stop_current (t : Nat) (a : Attrs) (rest : List Attrs)
    (last : Option One.Elt) (elt : One.Elt) (d : Nat)
    (h1 : One.Elt.from_attrs a = .ok elt) (h2 : parseDT elt.version = some d)
    (h3 : d ≤ t) (h4 : elt.is_current.as_bool = true) :
    One.current_at_loop t (a :: rest) last = .ok elt := by
  simp [One.current_at_loop, h1, h2, h3, h4]

/-- C1: schema-1 `current_at` scans in append order, returning `last_in_range`
as soon as a record is in range and flagged current (or out of range); on the
seven-record scenario with any target at or after the newest in-range record
(in particular `target = now`), it yields version
`20161213-093146_r575055`. -/
theorem one_current_at_scenario (t : Nat) (h : 20181220090624 ≤ t) :
    (One.current_at scenario1 t).map One.Elt.versionFull
      = Except.ok "20161213-093146_r575055" := by
  have h2 : (20181220090616 : Nat) ≤ t := le_trans (by norm_num) h
  have h3 : (20181220090608 : Nat) ≤ t := le_trans (by norm_num) h
  have h4 : (20181220090333 : Nat) ≤ t := le_trans (by norm_num) h
  have h5 : (20161213093146 : Nat) ≤ t := le_trans (by norm_num) h
  rw [One.current_at, show scenario1
        = [("is_current", "False"), ("version", "20181220-090624")]
          :: [("is_current", "False"), ("version", "20181220-090616")]
          :: [("is_current", "False"), ("version", "20181220-090608")]
          :: [("is_current", "False"), ("version", "20181220-090333")]
          :: [("is_current", "True"), ("version", "20161213-093146_r575055")]
          :: [[("is_current", "False"), ("version", "20181220-091955")],
              [("is_current", "False"), ("version", "20181220-092031")]] from rfl,
      one_loop_step_skip t [("is_current", "False"), ("version", "20181220-090624")]
        _ _ ⟨Pybool.False, "20181220-090624", none⟩ 20181220090624 rfl rfl h rfl,
      one_loop_step_skip t [("is_current", "False"), ("version", "20181220-090616")]
        _ _ ⟨Pybool.False, "20181220-090616", none⟩ 20181220090616 rfl rfl h2 rfl,
      one_loop_step_skip t [("is_current", "False"), ("version", "20181220-090608")]
        _ _ ⟨Pybool.False, "20181220-090608", none⟩ 20181220090608 rfl rfl h3 rfl,
      one_loop_step_skip t [("is_current", "False"), ("version", "20181220-090333")]
        _ _ ⟨Pybool.False, "20181220-090333", none⟩ 20181220090333 rfl rfl h4 rfl,
      one_loop_step_stop_current t [("is_current", "True"), ("version", "20161213-093146_r575055")]
        _ _ ⟨Pybool.True, "20161213-093146", some "r575055"⟩ 20161213093146 rfl rfl h5 rfl]
  rfl

/-- Witness for C1 at the concrete target 20260101-000000. -/
theorem one_current_at_scenario_witness :
    (20181220090624 : Nat) ≤ 20260101000000
    ∧ (One.current_at scenario1 20260101000000).map One.Elt.versionFull
        = Except.ok "20161213-093146_r575055" :=
  ⟨by norm_num, one_current_at_scenario 20260101000000 (by norm_num)⟩

/-- C9: building a schema-1 record from a version token with at most one
underscore and reading back its full version token reproduces the token:
`join(split(v)) = v`. -/
theorem elt_version_roundtrip (b : Pybool) (v : String)
    (h : v.toList.count '_' ≤ 1) :
    (One.Elt.new b v).versionFull = v := by
  have hlen : (splitChar '_' v).length = v.toList.count '_' + 1 :=
    splitCharAux_length '_' v.toList []
  have hjoin : joinPieces '_' (splitChar '_' v) = v := by
    have hj := joinPieces_splitCharAux '_' v.toList []
    simpa [splitChar] using hj
  rcases hsp : splitChar '_' v with _ | ⟨a, _ | ⟨b2, _ | ⟨c, rest⟩⟩⟩
  · rw [hsp] at hlen
    simp at hlen
  · rw [hsp] at hjoin
    have hav : a = v := by simpa [joinPieces] using hjoin
    simp [One.Elt.new, hsp, One.Elt.versionFull, hav]
  · rw [hsp] at hjoin
    have hav : a ++ String.mk ['_'] ++ b2 = v := by simpa [joinPieces] using hjoin
    simp only [One.Elt.new, hsp, One.Elt.versionFull]
    rw [← hav]
    have : String.mk ['_'] = "_" := rfl
    rw [this]
    rw [String.ext_iff]
    simp [String.data_append]
  · rw [hsp] at hlen
    simp [String.toList] at hlen h
    omega

/-- Witness for C9 on the revision-bearing token of the section-8 scenario. -/
theorem elt_version_roundtrip_witness :
    ("20161213-093146_r575055" : String).toList.count '_' ≤ 1
    ∧ (One.Elt.new Pybool.True "20161213-093146_r575055").versionFull
        = "20161213-093146_r575055" :=
  ⟨by decide, elt_version_roundtrip Pybool.True "20161213-093146_r575055" (by decide)⟩

theorem one_loop_in_range (t : Nat) (recs : List Attrs) :
    ∀ (last : Option One.Elt) (e : One.Elt),
      (∀ e', last = some e' → ∃ d, parseDT e'.version = some d ∧ d ≤ t) →
      One.current_at_loop t recs last = .ok e →
      ∃ d, parseDT e.version = some d ∧ d ≤ t := by
  induction recs with
  | nil =>
    intro last e _ hrun
    simp [One.current_at_loop] at hrun
  | cons a rest ih =>
    intro last e hinv hrun
    simp only [One.current_at_loop] at hrun
    cases hfa : One.Elt.from_attrs a with
    | error err => simp [hfa] at hrun
    | ok elt =>
      simp only [hfa] at hrun
      cases hp : parseDT elt.version with
      | none => simp [hp] at hrun
      | some d =>
        simp only [hp] at hrun
        by_cases hd : d ≤ t
        · by_cases hc : elt.is_current.as_bool = true
          · simp [hd, hc] at hrun
            exact hrun ▸ ⟨d, hp, hd⟩
          · simp only [Bool.not_eq_true] at hc
            simp [hd, hc] at hrun
            exact ih (some elt) e
              (fun e' he' => by
                rw [Option.some_inj] at he'
                exact he' ▸ ⟨d, hp, hd⟩)
              hrun
        · simp [hd] at hrun
          cases hlast : last with
          | none => simp [hlast] at hrun
          | some e' =>
            simp [hlast] at hrun
            exact hrun ▸ hinv e' hlast

/-- C7: whenever schema-1 `current_at` returns a record rather than an error,
that record's embedded timestamp parses and is at or before the target. -/
theorem one_current_at_in_range (recs : List Attrs) (t : Nat) (e : One.Elt)
    (h : One.current_at recs t = .ok e) :
    ∃ d, parseDT e.version = some d ∧ d ≤ t :=
  one_loop_in_range t recs none e (fun e' he' => by simp at he') h

/-- Witness for C7 on a one-record stream at target 20260101-000000. -/
theorem one_current_at_in_range_witness :
    ∃ d, parseDT (One.Elt.mk Pybool.True "20180702-144204" none).version = some d
      ∧ d ≤ 20260101000000 :=
  one_current_at_in_range [[("is_current", "True"), ("version", "20180702-144204")]]
    20260101000000 ⟨Pybool.True, "20180702-144204", none⟩ rfl

theorem one_loop_exhausted (t : Nat) (recs : List Attrs)
    (h : ∀ a ∈ recs, ∃ e d, One.Elt.from_attrs a = .ok e
      ∧ parseDT e.version = some d ∧ d ≤ t ∧ e.is_current.as_bool = false) :
    ∀ last, One.current_at_loop t recs last = .error .NoCurrentFound := by
  induction recs with
  | nil => intro last; rfl
  | cons a rest ih =>
    intro last
    obtain ⟨e, d, he, hd, hle, hcur⟩ := h a (by simp)
    rw [one_loop_step_skip t a rest last e d he hd hle hcur]
    exact ih (fun b hb => h b (by simp [hb])) (some e)

/-- C10: when every record of the stream is in range and not flagged current —
so neither stop condition ever triggers before end of stream — schema-1
`current_at` fails with `NoCurrentFound`, discarding the pending
`last_in_range` candidate. -/
theorem one_current_at_exhausted (recs : List Attrs) (t : Nat)
    (h : ∀ a ∈ recs, ∃ e d, One.Elt.from_attrs a = .ok e
      ∧ parseDT e.version = some d ∧ d ≤ t ∧ e.is_current.as_bool = false) :
    One.current_at recs t = .error .NoCurrentFound :=
  one_loop_exhausted t recs h none

/-- Witness for C10: one in-range, non-current record; `last_in_range` is set
on it and still `NoCurrentFound` results. -/
theorem one_current_at_exhausted_witness :
    One.current_at [[("is_current", "False"), ("version", "20180702-144204")]]
        20260101000000 = .error .NoCurrentFound :=
  one_current_at_exhausted [[("is_current", "False"), ("version", "20180702-144204")]]
    20260101000000
    (by
      intro a ha
      simp only [List.mem_singleton] at ha
      subst ha
      exact ⟨⟨Pybool.False, "20180702-144204", none⟩, 20180702144204,
        rfl, rfl, by norm_num, rfl⟩)

/-- C2: on a well-formed, newest-first schema-2 stream, `current_at` returns
the decoding of the first record in declared order whose datetime is at or
before the target, and fails with `NoCurrentFound` when no record qualifies. -/
theorem two_current_at_first (recs : List Attrs) (t : Nat)
    (hwf : Two.wellFormed recs) (hsort : Two.newestFirst recs) :
    Two.current_at recs t
      = match Two.firstAtOrBefore recs t with
        | some a => Two.Elt.from_attrs a
        | none => .error .NoCurrentFound := by
  induction recs with
  | nil => rfl
  | cons a rest ih =>
    obtain ⟨e, d, he, hd⟩ := hwf a (by simp)
    have hwf' : Two.wellFormed rest := fun b hb => hwf b (by simp [hb])
    have hsort' : Two.newestFirst rest := (List.pairwise_cons.mp hsort).2
    have hdt : Two.recDT a = some d := by simp [Two.recDT, he, hd]
    by_cases hle : d ≤ t
    · have hfind : Two.firstAtOrBefore (a :: rest) t = some a := by
        unfold Two.firstAtOrBefore
        exact List.find?_cons_of_pos _ (by simp [hdt, hle])
      rw [hfind]
      simp [Two.current_at, he, hd, hle]
    · have hfind : Two.firstAtOrBefore (a :: rest) t = Two.firstAtOrBefore rest t := by
        unfold Two.firstAtOrBefore
        exact List.find?_cons_of_neg _ (by simp [hdt, hle])
      rw [hfind, show Two.current_at (a :: rest) t = Two.current_at rest t from by
            simp [Two.current_at, he, hd, hle]]
      exact ih hwf' hsort'

/-- Witness for C2 on a two-record newest-first stream whose target falls
between the two datetimes, so the second record is the first qualifying one. -/
theorem two_current_at_first_witness :
    Two.wellFormed
        [[("action", "install"), ("datetime", "20181221-142313"),
          ("hash", "c618755a"), ("version", "5")],
         [("action", "install"), ("datetime", "20181221-142248"),
          ("hash", "5c8fdabe"), ("version", "4")]]
    ∧ Two.newestFirst
        [[("action", "install"), ("datetime", "20181221-142313"),
          ("hash", "c618755a"), ("version", "5")],
         [("action", "install"), ("datetime", "20181221-142248"),
          ("hash", "5c8fdabe"), ("version", "4")]]
    ∧ Two.current_at
        [[("action", "install"), ("datetime", "20181221-142313"),
          ("hash", "c618755a"), ("version", "5")],
         [("action", "install"), ("datetime", "20181221-142248"),
          ("hash", "5c8fdabe"), ("version", "4")]] 20181221142300
      = match Two.firstAtOrBefore
            [[("action", "install"), ("datetime", "20181221-142313"),
              ("hash", "c618755a"), ("version", "5")],
             [("action", "install"), ("datetime", "20181221-142248"),
              ("hash", "5c8fdabe"), ("version", "4")]] 20181221142300 with
        | some a => Two.Elt.from_attrs a
        | none => .error .NoCurrentFound := by
  have hwf : Two.wellFormed
      [[("action", "install"), ("datetime", "20181221-142313"),
        ("hash", "c618755a"), ("version", "5")],
       [("action", "install"), ("datetime", "20181221-142248"),
        ("hash", "5c8fdabe"), ("version", "4")]] := by
    intro a ha
    simp only [List.mem_cons, List.not_mem_nil, or_false] at ha
    rcases ha with rfl | rfl
    · exact ⟨⟨"install", "20181221-142313", "c618755a", "5"⟩, 20181221142313, rfl, rfl⟩
    · exact ⟨⟨"install", "20181221-142248", "5c8fdabe", "4"⟩, 20181221142248, rfl, rfl⟩
  have hsort : Two.newestFirst
      [[("action", "install"), ("datetime", "20181221-142313"),
        ("hash", "c618755a"), ("version", "5")],
       [("action", "install"), ("datetime", "20181221-142248"),
        ("hash", "5c8fdabe"), ("version", "4")]] := by
    refine List.Pairwise.cons ?_ (List.Pairwise.cons (by simp) List.Pairwise.nil)
    intro b hb
    simp only [List.mem_singleton] at hb
    subst hb
    intro da db h1 h2
    have e1 : Two.recDT
        [("action", "install"), ("datetime", "20181221-142313"),
         ("hash", "c618755a"), ("version", "5")] = some 20181221142313 := rfl
    have e2 : Two.recDT
        [("action", "install"), ("datetime", "20181221-142248"),
         ("hash", "5c8fdabe"), ("version", "4")] = some 20181221142248 := rfl
    rw [e1] at h1
    rw [e2] at h2
    have hda : da = 20181221142313 := (Option.some_inj.mp h1).symm
    have hdb : db = 20181221142248 := (Option.some_inj.mp h2).symm
    omega
  exact ⟨hwf, hsort, two_current_at_first _ 20181221142300 hwf hsort⟩

theorem one_update_loop_eq (elem : One.Elt) (recs : List Attrs)
    (hwf : One.wellFormed recs) :
    One.update_loop elem recs = .ok (recs.map One.rewriteRecord ++ [One.new_elem elem]) := by
  induction recs with
  | nil => simp [One.update_loop]
  | cons a rest ih =>
    obtain ⟨e, he⟩ := hwf a (by simp)
    have hrest : One.wellFormed rest := fun b hb => hwf b (by simp [hb])
    simp only [One.update_loop, he, ih hrest, One.rewriteRecord, List.map_cons]
    cases hcur : e.is_current.as_bool <;> simp [hcur]

/-- C3 (amended): schema-1 install copies every non-current record verbatim,
re-emits every current-flagged record with `is_current="False"` and its
version attribute reduced to the timestamp part of its token (any revision
suffix dropped), and appends exactly one new record built from the new
element's flag and (split) version after all existing records. -/
theorem one_update_install (v : String) (recs : List Attrs) (elem : One.Elt)
    (hwf : One.wellFormed recs) :
    One.update (actions.Action.Install v) recs elem
      = .ok (recs.map One.rewriteRecord ++ [One.new_elem elem]) := by
  simp [One.update, one_update_loop_eq elem recs hwf]

/-- Witness for C3's amended statement on a one-record stream whose current
record carries a revision suffix. -/
theorem one_update_install_witness :
    One.wellFormed [[("is_current", "True"), ("version", "20161213-093146_r575055")]]
    ∧ One.update (actions.Action.Install "20190101-113000")
        [[("is_current", "True"), ("version", "20161213-093146_r575055")]]
        (One.Elt.new Pybool.True "20190101-113000")
      = .ok ([[("is_current", "True"), ("version", "20161213-093146_r575055")]].map
              One.rewriteRecord
            ++ [One.new_elem (One.Elt.new Pybool.True "20190101-113000")]) := by
  have hwf : One.wellFormed
      [[("is_current", "True"), ("version", "20161213-093146_r575055")]] := by
    intro a ha
    simp only [List.mem_singleton] at ha
    subst ha
    exact ⟨⟨Pybool.True, "20161213-093146", some "r575055"⟩, rfl⟩
  exact ⟨hwf, one_update_install "20190101-113000" _ _ hwf⟩

theorem two_update_loop_tail (elem : Two.Elt) (l : List Attrs) :
    Two.update_loop elem 1 l = l := by
  induction l with
  | nil => rfl
  | cons a r ih => simp [Two.update_loop, ih]

/-- C4 (amended): schema-2 install on a stream with at least one existing
record inserts the new record at position 0 and copies every existing record
unchanged after it; on a stream with no existing records nothing is written,
so the new record is absent from the output. -/
theorem two_update_install_nonempty (v : String) (recs : List Attrs)
    (elem : Two.Elt) (h : recs ≠ []) :
    Two.update (actions.Action.Install v) recs elem
      = .ok (Two.new_elem elem :: recs) := by
  cases recs with
  | nil => exact absurd rfl h
  | cons a rest => simp [Two.update, Two.update_loop, two_update_loop_tail]

/-- Witness for C4's amended statement on a one-record stream. -/
theorem two_update_install_nonempty_witness :
    ([[("action", "install"), ("datetime", "20180702-144204"),
       ("hash", "194f8355"), ("version", "3")]] : List Attrs) ≠ []
    ∧ Two.update (actions.Action.Install "4")
        [[("action", "install"), ("datetime", "20180702-144204"),
          ("hash", "194f8355"), ("version", "3")]]
        ⟨"install", "20190101-113000", "124a8355", "4"⟩
      = .ok (Two.new_elem ⟨"install", "20190101-113000", "124a8355", "4"⟩
            :: [[("action", "install"), ("datetime", "20180702-144204"),
                 ("hash", "194f8355"), ("version", "3")]]) :=
  ⟨by simp, two_update_install_nonempty "4" _ _ (by simp)⟩

/-- C8 (amended): for a stack path whose components are
`<dir>/bak/<base>/<stack-file>`, the derived versioned path is
`<dir>/bak/<base>/<base>_<version>` — the versioned file sits next to the
stack file, and the `bak` component is retained, not dropped. -/
theorem versioned_path_shape (fp : String) (dir : List String)
    (base sfile v : String)
    (h : splitChar '/' fp = dir ++ ["bak", base, sfile]) :
    versioned_from_swinstall_stack fp v
      = .ok (String.intercalate "/" (dir ++ ["bak", base, base ++ "_" ++ v])) := by
  have h1 : (dir ++ ["bak", base, sfile]).dropLast = dir ++ ["bak", base] := by
    rw [show dir ++ ["bak", base, sfile] = (dir ++ ["bak", base]) ++ [sfile] by simp]
    exact List.dropLast_concat ..
  have h2 : (dir ++ ["bak", base]).getLast? = some base := by
    rw [show dir ++ ["bak", base] = (dir ++ ["bak"]) ++ [base] by simp]
    exact List.getLast?_concat ..
  have h3 : (dir ++ ["bak", base]).dropLast = dir ++ ["bak"] := by
    rw [show dir ++ ["bak", base] = (dir ++ ["bak"]) ++ [base] by simp]
    exact List.dropLast_concat ..
  simp only [versioned_from_swinstall_stack, h, h1, h2, h3]
  congr 1
  simp

/-- Witness for C8's amended statement on the repository's test stack path. -/
theorem versioned_path_shape_witness :
    versioned_from_swinstall_stack
        "/dd/facility/etc/bak/packages.xml/packages.xml_swinstall_stack" "0002"
      = .ok (String.intercalate "/"
          (["", "dd", "facility", "etc"]
            ++ ["bak", "packages.xml", "packages.xml" ++ "_" ++ "0002"])) :=
  versioned_path_shape _ ["", "dd", "facility", "etc"]
    "packages.xml" "packages.xml_swinstall_stack" "0002" rfl
